import Mathlib

set_option maxRecDepth 100000

/-!
Verification of the numerical notebooks of the course repository
"Quantum Mechanics for Engineers EE 421/521 (Winter 2024)".

The repository holds two Jupyter notebooks (`HW2_quantum_phenomena.ipynb`,
`HW4_cats_and_qubits.ipynb`) and a README.  This file embeds, in Lean:

* the finite-difference Schrödinger pipeline of HW2 (grid, hopping
  coefficient, tridiagonal Hamiltonian, reordering after the
  eigen-decomposition, probability densities, superposition
  normalization cell, `evolve` generator), with exact rational / real /
  complex arithmetic standing for the floating point of the notebooks;
* the probability computation of HW4 (the `probs` loop over counts);
* a statement-level transcription of every code statement of both
  notebooks, classified by syntactic kind, observable effect, and (for
  HW4) the API category of the call, used for the structural claims
  (assert count, exception handling, side effects, API-tour shape).

Third-party library calls (`np.linalg.eig`, qiskit) are modelled by
their documented contracts: `np.linalg.eig` is an arbitrary function
`eig` together with the hypothesis that each returned column/value pair
is an eigenpair of the argument matrix; `np.arange(None)` raises a
`TypeError` (numpy rejects a `None` stop), which the `evolve` embedding
returns as `Except.error`.
-/

/-! Section: HW2: grid and discretized Hamiltonian

Notebook source (cell "N = 200 ... vecs /= np.sqrt(a)" and the earlier
split cells, identical formulas):

    X = np.linspace(0,L,num=N) - L/2
    a = X[1] - X[0] # grid spacing
    t = -eta**2 / (2 * m * a**2)
    eps = -2*t + q * V(X)
    H = t*np.eye(N, k=-1) + eps*np.eye(N) + t*np.eye(N, k=1)
-/

/-- Embedding of `np.linspace(start, stop, num)` (default `endpoint=True`):
`num` evenly spaced samples, step `(stop-start)/(num-1)`;
embedded as a total function on the index. -/
def linspace (start stop : ℚ) (num : ℕ) : ℕ → ℚ :=
  fun i => start + i * ((stop - start) / ((num : ℚ) - 1))

/-- The grid of the notebook, `X = np.linspace(0,L,num=N) - L/2`. -/
def gridX (L : ℚ) (N : ℕ) : ℕ → ℚ :=
  fun i => linspace 0 L N i - L / 2

/-- The grid spacing of the notebook, `a = X[1] - X[0]`. -/
def aGrid (L : ℚ) (N : ℕ) : ℚ := gridX L N 1 - gridX L N 0

/-- The hopping coefficient of the notebook, `t = -eta**2 / (2 * m * a**2)`. -/
def tHop (eta m a : ℚ) : ℚ := -eta ^ 2 / (2 * m * a ^ 2)

/-- The diagonal of the notebook, `eps = -2*t + q * V(X)` (elementwise in the
grid array; both notebook potentials act elementwise). -/
def epsDiag (t q : ℚ) (V : ℚ → ℚ) (x : ℕ → ℚ) : ℕ → ℚ :=
  fun i => -2 * t + q * V (x i)

/-- Embedding of `np.eye(N, k)`: ones on the `k`-th diagonal (entry `(i, i+k)` is 1),
zeros elsewhere. -/
def eyeK (N : ℕ) (k : ℤ) : Matrix (Fin N) (Fin N) ℚ :=
  fun i j => if (j : ℤ) = (i : ℤ) + k then 1 else 0

/-- numpy broadcasting of a shape-`(N,)` array against an `N×N` array:
`(v * M)[i, j] = v[j] * M[i, j]` (the vector is broadcast across rows). -/
def broadcastMul (N : ℕ) (v : ℕ → ℚ) (M : Matrix (Fin N) (Fin N) ℚ) :
    Matrix (Fin N) (Fin N) ℚ :=
  fun i j => v j * M i j

/-- The discretized Hamiltonian
`H = t*np.eye(N, k=-1) + eps*np.eye(N) + t*np.eye(N, k=1)`,
with `t`, `eps` as in the notebook. -/
def Hmat (N : ℕ) (L eta m q : ℚ) (V : ℚ → ℚ) : Matrix (Fin N) (Fin N) ℚ :=
  let a := aGrid L N
  let t := tHop eta m a
  let eps := epsDiag t q V (gridX L N)
  t • eyeK N (-1) + broadcastMul N eps (eyeK N 0) + t • eyeK N 1

/-- Embedding of `vals, vecs = np.linalg.eig(H)`: the program feeds `H` to the dense
eigensolver `eig` and keeps both components of its result. -/
def programEig (N : ℕ)
    (eig : Matrix (Fin N) (Fin N) ℚ → (Fin N → ℚ) × Matrix (Fin N) (Fin N) ℚ)
    (L eta m q : ℚ) (V : ℚ → ℚ) :
    (Fin N → ℚ) × Matrix (Fin N) (Fin N) ℚ :=
  eig (Hmat N L eta m q V)

/-- C1: the discretized Hamiltonian built by the notebooks is the N×N
tridiagonal matrix with `t = -eta^2/(2*m*a^2)` on both off-diagonals,
`-2*t + q*V(x_i)` on the diagonal and zero elsewhere; and the energies
and wavefunctions the program keeps are the output of the dense
eigensolver applied to this matrix, hence (by the contract of the eigensolver) eigenvalue/eigenvector pairs of this matrix. -/
theorem hamiltonian_tridiagonal_and_eigendecomposition
    (N : ℕ) (L eta m q : ℚ) (V : ℚ → ℚ)
    (eig : Matrix (Fin N) (Fin N) ℚ → (Fin N → ℚ) × Matrix (Fin N) (Fin N) ℚ)
    (hEig : ∀ A : Matrix (Fin N) (Fin N) ℚ, ∀ k r : Fin N,
      A.mulVec (fun x => (eig A).2 x k) r = (eig A).1 k * (eig A).2 r k) :
    (∀ i j : Fin N,
      Hmat N L eta m q V i j =
        if (i : ℕ) + 1 = (j : ℕ) ∨ (j : ℕ) + 1 = (i : ℕ) then
          tHop eta m (aGrid L N)
        else if (i : ℕ) = (j : ℕ) then
          -2 * tHop eta m (aGrid L N) + q * V (gridX L N i)
        else 0) ∧
    (∀ k r : Fin N,
      (Hmat N L eta m q V).mulVec
          (fun x => (programEig N eig L eta m q V).2 x k) r =
        (programEig N eig L eta m q V).1 k *
          (programEig N eig L eta m q V).2 r k) := by
  constructor
  · intro i j
    have hL :
        Hmat N L eta m q V i j =
          tHop eta m (aGrid L N) * (if (j : ℤ) = (i : ℤ) + (-1) then 1 else 0) +
          (-2 * tHop eta m (aGrid L N) + q * V (gridX L N j)) *
            (if (j : ℤ) = (i : ℤ) + 0 then 1 else 0) +
          tHop eta m (aGrid L N) * (if (j : ℤ) = (i : ℤ) + 1 then 1 else 0) := by
      simp [Hmat, Matrix.add_apply, Matrix.smul_apply, eyeK, broadcastMul, epsDiag,
        smul_eq_mul]
    rw [hL]
    by_cases c1 : (j : ℤ) = (i : ℤ) + (-1)
    · rw [if_pos c1, if_neg (by omega), if_neg (by omega),
        if_pos (Or.inr (show (j : ℕ) + 1 = (i : ℕ) by omega))]
      ring
    · by_cases c2 : (j : ℤ) = (i : ℤ) + 0
      · rw [if_neg c1, if_pos c2, if_neg (by omega),
          if_neg (show ¬ ((i : ℕ) + 1 = (j : ℕ) ∨ (j : ℕ) + 1 = (i : ℕ)) by omega),
          if_pos (show (i : ℕ) = (j : ℕ) by omega)]
        have hij : (j : ℕ) = (i : ℕ) := by omega
        rw [hij]
        ring
      · by_cases c3 : (j : ℤ) = (i : ℤ) + 1
        · rw [if_neg c1, if_neg c2, if_pos c3,
            if_pos (Or.inl (show (i : ℕ) + 1 = (j : ℕ) by omega))]
          ring
        · rw [if_neg c1, if_neg c2, if_neg c3,
            if_neg (show ¬ ((i : ℕ) + 1 = (j : ℕ) ∨ (j : ℕ) + 1 = (i : ℕ)) by omega),
            if_neg (show ¬ ((i : ℕ) = (j : ℕ)) by omega)]
          ring
  · intro k r
    exact hEig (Hmat N L eta m q V) k r

/-- C1 witness: concrete instantiation at `N = 2`, `L = 2`, `eta = m = q = 1`,
`V = id`, with the (contract-satisfying) eigensolver that returns zero
vectors, every hypothesis discharged concretely. -/
theorem hamiltonian_tridiagonal_and_eigendecomposition_witness :
    (∀ i j : Fin 2,
      Hmat 2 2 1 1 1 id i j =
        if (i : ℕ) + 1 = (j : ℕ) ∨ (j : ℕ) + 1 = (i : ℕ) then
          tHop 1 1 (aGrid 2 2)
        else if (i : ℕ) = (j : ℕ) then
          -2 * tHop 1 1 (aGrid 2 2) + 1 * id (gridX 2 2 i)
        else 0) ∧
    (∀ k r : Fin 2,
      (Hmat 2 2 1 1 1 id).mulVec
          (fun x => (programEig 2 (fun _ => (fun _ => 0, fun _ _ => 0)) 2 1 1 1 id).2 x k) r =
        (programEig 2 (fun _ => (fun _ => 0, fun _ _ => 0)) 2 1 1 1 id).1 k *
          (programEig 2 (fun _ => (fun _ => 0, fun _ _ => 0)) 2 1 1 1 id).2 r k) :=
  hamiltonian_tridiagonal_and_eigendecomposition 2 2 1 1 1 id
    (fun _ => (fun _ => 0, fun _ _ => 0))
    (by
      intro A k r
      simp [Matrix.mulVec, Matrix.dotProduct])

/-! Section: HW2: probability densities (squared modulus)

Notebook source: `p = np.abs(vecs)**2` after the eigen-decomposition,
and during the animation `wave = (coeff @ psi)`, `p = np.abs(wave)**2`.
`np.abs` of a complex array is the complex modulus; the embedding keeps
the shape used in the notebook (modulus first, then squaring). -/

/-- Embedding of `p = np.abs(vecs)**2`: elementwise squared modulus of the stored
wavefunction array (`vecs[i]` is the `i`-th wavefunction on the grid). -/
noncomputable def pDensity (n N : ℕ) (vecs : Fin n → Fin N → ℂ) :
    Fin n → Fin N → ℝ :=
  fun i j => Complex.abs (vecs i j) ^ 2

/-- Embedding of `wave = coeff @ psi`: the superposition wavefunction on the grid. -/
noncomputable def waveSum (n N : ℕ) (coeff : Fin n → ℂ) (psi : Fin n → Fin N → ℂ) :
    Fin N → ℂ :=
  fun x => ∑ m, coeff m * psi m x

/-- Embedding of `p = np.abs(wave)**2`: the plotted density during time evolution. -/
noncomputable def pWave (n N : ℕ) (coeff : Fin n → ℂ) (psi : Fin n → Fin N → ℂ) :
    Fin N → ℝ :=
  fun x => Complex.abs (waveSum n N coeff psi x) ^ 2

/-- C2: the computed position probability density is the squared modulus
of the wavefunction: `p[i][j] = |vecs[i][j]|^2` for every level `i` and
grid point `j`, and the plotted density during time evolution satisfies
`p(x) = |wave(x)|^2` at every grid point, where the squared modulus is
`re^2 + im^2`. -/
theorem probability_density_is_squared_modulus
    (n N : ℕ) (vecs : Fin n → Fin N → ℂ)
    (coeff : Fin n → ℂ) (psi : Fin n → Fin N → ℂ) :
    (∀ i j, pDensity n N vecs i j =
      (vecs i j).re ^ 2 + (vecs i j).im ^ 2) ∧
    (∀ x, pWave n N coeff psi x =
      (waveSum n N coeff psi x).re ^ 2 + (waveSum n N coeff psi x).im ^ 2) := by
  constructor
  · intro i j
    rw [pDensity, Complex.sq_abs, Complex.normSq_apply]
    ring
  · intro x
    rw [pWave, Complex.sq_abs, Complex.normSq_apply]
    ring

/-! Section: HW2: reordering after the eigen-decomposition

Notebook source (appearing twice, identically):

    order = np.argsort(vals)
    vals, vecs = vals[order], vecs[:, order]
    vecs = vecs.T
    vecs /= np.sqrt(a)

`np.argsort` returns a permutation of `0..n-1` that sorts the array in
non-decreasing order; it is embedded as a merge sort of the index list
keyed by the values.  The float `np.sqrt(a)` is embedded as a parameter
`s` (the reordering facts below hold for every nonzero `s`). -/

/-- Embedding of `order = np.argsort(vals)`: indices that sort `vals` ascending. -/
def argsort (n : ℕ) (v : Fin n → ℚ) : List (Fin n) :=
  (List.finRange n).mergeSort (fun i j => decide (v i ≤ v j))

theorem argsort_length (n : ℕ) (v : Fin n → ℚ) : (argsort n v).length = n := by
  rw [argsort, List.length_mergeSort, List.length_finRange]

/-- The sorting permutation as a function on indices: `orderFun v i` is
`order[i]`. -/
def orderFun (n : ℕ) (v : Fin n → ℚ) : Fin n → Fin n :=
  fun i => (argsort n v).get (Fin.cast (argsort_length n v).symm i)

/-- Embedding of `vals[order]`. -/
def sortedVals (n : ℕ) (v : Fin n → ℚ) : Fin n → ℚ :=
  fun i => v (orderFun n v i)

/-- Embedding of `vecs[:, order]`: the columns permuted by the same `order`. -/
def permutedVecs (n : ℕ) (vecs : Matrix (Fin n) (Fin n) ℚ) (v : Fin n → ℚ) :
    Matrix (Fin n) (Fin n) ℚ :=
  fun i j => vecs i (orderFun n v j)

/-- Embedding of `vecs = vecs.T`: rows now index the eigenvectors. -/
def rowVecs (n : ℕ) (vecs : Matrix (Fin n) (Fin n) ℚ) (v : Fin n → ℚ) :
    Matrix (Fin n) (Fin n) ℚ :=
  (permutedVecs n vecs v).transpose

/-- Embedding of `vecs /= np.sqrt(a)`, with `s` standing for the float `np.sqrt(a)`. -/
def finalVecs (n : ℕ) (vecs : Matrix (Fin n) (Fin n) ℚ) (v : Fin n → ℚ) (s : ℚ) :
    Matrix (Fin n) (Fin n) ℚ :=
  fun i j => rowVecs n vecs v i j / s

theorem argsort_perm (n : ℕ) (v : Fin n → ℚ) :
    (argsort n v).Perm (List.finRange n) :=
  List.mergeSort_perm (List.finRange n) _

theorem orderFun_bijective (n : ℕ) (v : Fin n → ℚ) :
    Function.Bijective (orderFun n v) := by
  rw [← Finite.injective_iff_bijective]
  have hnd : (argsort n v).Nodup :=
    ((argsort_perm n v).symm).nodup (List.nodup_finRange n)
  have hget : Function.Injective (argsort n v).get :=
    List.nodup_iff_injective_get.mp hnd
  intro a b hab
  have : Fin.cast (argsort_length n v).symm a = Fin.cast (argsort_length n v).symm b :=
    hget hab
  simpa [Fin.ext_iff] using this

theorem sortedVals_monotone (n : ℕ) (v : Fin n → ℚ) :
    ∀ i j : Fin n, i ≤ j → sortedVals n v i ≤ sortedVals n v j := by
  intro i j hij
  have hpw : List.Pairwise (fun a b => (decide (v a ≤ v b)) = true) (argsort n v) :=
    List.sorted_mergeSort
      (by intro a b c hab hbc
          simp only [decide_eq_true_eq] at *
          exact le_trans hab hbc)
      (by intro a b
          simp only [Bool.or_eq_true, decide_eq_true_eq]
          exact le_total (v a) (v b))
      (List.finRange n)
  rcases lt_or_eq_of_le hij with hlt | heq
  · have := (List.pairwise_iff_get.mp hpw)
      (Fin.cast (argsort_length n v).symm i) (Fin.cast (argsort_length n v).symm j)
      (by rw [Fin.lt_def, Fin.coe_cast, Fin.coe_cast]
          exact hlt)
    simpa [sortedVals, orderFun, decide_eq_true_eq] using this
  · rw [heq]

/-- C8: after the reordering step, the eigenvalue array is sorted in
non-decreasing order; one and the same bijective index permutation
(`orderFun`, the embedding of `np.argsort(vals)`) is applied to the
eigenvalues and to the eigenvector columns; and each resulting pair
(`sortedVals i`, row `i` of the final array) is still an eigenpair of
`H` — the eigenvector having merely been uniformly rescaled by `1/s`
(with `s` standing for `np.sqrt(a)`), which also preserves being
nonzero. -/
theorem reorder_keeps_sorted_eigenpairs
    (n : ℕ) (Hm vecs : Matrix (Fin n) (Fin n) ℚ) (vals : Fin n → ℚ)
    (s : ℚ) (hs : s ≠ 0)
    (hEig : ∀ k r : Fin n, Hm.mulVec (fun x => vecs x k) r = vals k * vecs r k) :
    (∀ i j : Fin n, i ≤ j → sortedVals n vals i ≤ sortedVals n vals j) ∧
    Function.Bijective (orderFun n vals) ∧
    (∀ i, sortedVals n vals i = vals (orderFun n vals i)) ∧
    (∀ i j, finalVecs n vecs vals s i j = vecs j (orderFun n vals i) / s) ∧
    (∀ i r : Fin n,
      Hm.mulVec (fun j => finalVecs n vecs vals s i j) r =
        sortedVals n vals i * finalVecs n vecs vals s i r) ∧
    (∀ i : Fin n, (fun x => vecs x (orderFun n vals i)) ≠ 0 →
      (fun j => finalVecs n vecs vals s i j) ≠ 0) := by
  have hcol : ∀ i : Fin n,
      (fun j => finalVecs n vecs vals s i j) =
        s⁻¹ • (fun x => vecs x (orderFun n vals i)) := by
    intro i
    funext j
    simp [finalVecs, rowVecs, permutedVecs, Matrix.transpose_apply,
      div_eq_inv_mul, smul_eq_mul]
  refine ⟨sortedVals_monotone n vals, orderFun_bijective n vals,
    fun i => rfl, fun i j => rfl, ?_, ?_⟩
  · intro i r
    rw [hcol i, Matrix.mulVec_smul]
    have := hEig (orderFun n vals i) r
    simp only [Pi.smul_apply, smul_eq_mul]
    rw [this]
    simp [sortedVals, finalVecs, rowVecs, permutedVecs, Matrix.transpose_apply,
      div_eq_inv_mul]
    ring
  · intro i hnz hzero
    rw [hcol i] at hzero
    rcases smul_eq_zero.mp hzero with h | h
    · exact inv_ne_zero hs h
    · exact hnz h

/-- C8 witness: concrete instantiation at `n = 2`, `H = diag(2,1)`,
initially unsorted `vals = (2,1)` with the identity eigenvector matrix
and `s = 1`; all hypotheses discharged concretely. -/
theorem reorder_keeps_sorted_eigenpairs_witness :
    (∀ i j : Fin 2, i ≤ j →
      sortedVals 2 ![2, 1] i ≤ sortedVals 2 ![2, 1] j) ∧
    Function.Bijective (orderFun 2 ![2, 1]) ∧
    (∀ i, sortedVals 2 ![2, 1] i = ![2, 1] (orderFun 2 ![2, 1] i)) ∧
    (∀ i j, finalVecs 2 (1 : Matrix (Fin 2) (Fin 2) ℚ) ![2, 1] 1 i j =
      (1 : Matrix (Fin 2) (Fin 2) ℚ) j (orderFun 2 ![2, 1] i) / 1) ∧
    (∀ i r : Fin 2,
      (Matrix.diagonal ![2, 1]).mulVec
          (fun j => finalVecs 2 (1 : Matrix (Fin 2) (Fin 2) ℚ) ![2, 1] 1 i j) r =
        sortedVals 2 ![2, 1] i *
          finalVecs 2 (1 : Matrix (Fin 2) (Fin 2) ℚ) ![2, 1] 1 i r) ∧
    (∀ i : Fin 2,
      (fun x => (1 : Matrix (Fin 2) (Fin 2) ℚ) x (orderFun 2 ![2, 1] i)) ≠ 0 →
      (fun j => finalVecs 2 (1 : Matrix (Fin 2) (Fin 2) ℚ) ![2, 1] 1 i j) ≠ 0) :=
  reorder_keeps_sorted_eigenpairs 2 (Matrix.diagonal ![2, 1])
    (1 : Matrix (Fin 2) (Fin 2) ℚ) ![2, 1] 1 one_ne_zero
    (by
      intro k r
      fin_cases k <;> fin_cases r <;>
        · rw [Matrix.mulVec, Matrix.dotProduct, Fin.sum_univ_two]
          norm_num [Matrix.diagonal, Matrix.one_apply])

/-! Section: HW2: the superposition-normalization cell

Notebook source:

    try:
        norm = (np.abs(coeff)**2).sum()
        assert norm > 0
        coeff /= np.sqrt(norm)
    except AssertionError:
        print(...)
    print(...)

When the assert passes, `coeff` is divided by `np.sqrt(norm)` and only
the final coefficients are printed; when it fails (norm not `> 0`), the
raised `AssertionError` is caught, the error line is printed, `coeff`
is left as it was, and execution continues to the final print. -/

/-- The error line printed by the `except AssertionError` handler. -/
def normErrorMsg : String :=
  "Error: Norm is zero, you must set the coeffients to nonzero"

/-- The label of the final `print` of the cell (always executed). -/
def printCoeffMsg : String := "Coeffients:"

/-- The normalization cell: returns the final `coeff` array and the list
of lines printed while executing the cell. -/
noncomputable def normCell (n : ℕ) (coeff : Fin n → ℂ) :
    (Fin n → ℂ) × List String :=
  let norm : ℝ := ∑ m, Complex.abs (coeff m) ^ 2
  if 0 < norm then
    ((fun m => coeff m / ((Real.sqrt norm : ℝ) : ℂ)), [printCoeffMsg])
  else
    (coeff, [normErrorMsg, printCoeffMsg])

/-- Error branch of the cell: with every coefficient zero the computed
norm is 0, the `assert` raises, the handler prints the error line, and
the cell falls through to its final print with `coeff` untouched. -/
theorem normCell_of_all_zero (n : ℕ) (coeff : Fin n → ℂ)
    (hzero : ∀ m, coeff m = 0) :
    normCell n coeff = (coeff, [normErrorMsg, printCoeffMsg]) := by
  have hnorm : (∑ m, Complex.abs (coeff m) ^ 2) = 0 :=
    Finset.sum_eq_zero (fun m _ => by rw [hzero m]; simp)
  rw [normCell]
  simp only [hnorm, lt_self_iff_false, if_neg, not_false_iff]

/-- C10: if at least one coefficient is nonzero, the cell leaves the sum
of the squared moduli of the coefficients equal to 1; if every
coefficient is zero, the `AssertionError` is caught, the error message
is printed (followed by the final print of the cell), and `coeff` is
unchanged. -/
theorem normalization_cell_spec (n : ℕ) (coeff : Fin n → ℂ) :
    ((∃ m, coeff m ≠ 0) →
      ∑ m, Complex.abs ((normCell n coeff).1 m) ^ 2 = 1) ∧
    ((∀ m, coeff m = 0) →
      normCell n coeff = (coeff, [normErrorMsg, printCoeffMsg])) := by
  constructor
  · intro hex
    have hterm : ∀ m : Fin n, m ∈ Finset.univ → 0 ≤ Complex.abs (coeff m) ^ 2 :=
      fun m _ => sq_nonneg _
    have hpos : 0 < ∑ m, Complex.abs (coeff m) ^ 2 := by
      obtain ⟨m0, hm0⟩ := hex
      exact Finset.sum_pos' hterm
        ⟨m0, Finset.mem_univ m0, pow_pos (Complex.abs.pos hm0) 2⟩
    rw [normCell]
    simp only [hpos, if_pos]
    have hsq : Real.sqrt (∑ m, Complex.abs (coeff m) ^ 2) ^ 2 =
        ∑ m, Complex.abs (coeff m) ^ 2 := Real.sq_sqrt hpos.le
    have habs : ∀ m : Fin n,
        Complex.abs (coeff m / ((Real.sqrt (∑ k, Complex.abs (coeff k) ^ 2) : ℝ) : ℂ)) ^ 2 =
          Complex.abs (coeff m) ^ 2 / (∑ k, Complex.abs (coeff k) ^ 2) := by
      intro m
      rw [map_div₀, div_pow, Complex.abs_ofReal,
        abs_of_nonneg (Real.sqrt_nonneg _), hsq]
    calc ∑ m, Complex.abs (coeff m / ((Real.sqrt (∑ k, Complex.abs (coeff k) ^ 2) : ℝ) : ℂ)) ^ 2
        = ∑ m, Complex.abs (coeff m) ^ 2 / (∑ k, Complex.abs (coeff k) ^ 2) := by
          exact Finset.sum_congr rfl (fun m _ => habs m)
      _ = (∑ m, Complex.abs (coeff m) ^ 2) / (∑ k, Complex.abs (coeff k) ^ 2) := by
          rw [Finset.sum_div]
      _ = 1 := div_self hpos.ne'
  · exact normCell_of_all_zero n coeff

/-- C10 witness: the two branches at concrete coefficient arrays — the
constant-1 array on `Fin 1` is normalized to total probability 1, the
all-zero array is returned unchanged together with the error line. -/
theorem normalization_cell_spec_witness :
    (∑ m, Complex.abs ((normCell 1 (fun _ => 1)).1 m) ^ 2 = 1) ∧
    (normCell 1 (fun _ => 0) = ((fun _ => 0), [normErrorMsg, printCoeffMsg])) :=
  ⟨(normalization_cell_spec 1 (fun _ => 1)).1 ⟨0, one_ne_zero⟩,
   (normalization_cell_spec 1 (fun _ => 0)).2 (fun _ => rfl)⟩

/-- C4 counterexample: the normalization cell is an operation that
catches a raised exception and continues on the error path — on the
array shape of the notebook, `cutoff = 20`,, with all coefficients zero,
the `assert` raises, the handler catches and prints the error line, and
the cell still reaches its final print with `coeff` unchanged. -/
theorem normalization_cell_catches_and_continues :
    normCell 20 (fun _ => 0) = ((fun _ => 0), [normErrorMsg, printCoeffMsg]) :=
  normCell_of_all_zero 20 (fun _ => 0) (fun _ => rfl)

/-! Section: HW2: the `evolve` generator

Notebook source:

    def evolve(coeff, psi, E, timestep=5, num_step=300):
        assert len(coeff) == len(psi) == len(E)
        ts = np.arange(num_step)*timestep
        t = 0
        cnt = 0
        while num_step is None or cnt < num_step:
            c = coeff * np.exp(- 1j * E / eta * t)
            cnt += 1
            t += timestep
            yield t, c @ psi

The common length of `coeff`, `psi`, `E` (the `assert`) is the shared
index type `Fin n`.  `ts` is unused, but it is computed before the loop:
`np.arange` raises a `TypeError` when its stop argument is `None`, so a
call with `num_step=None` raises on the first advance of the generator,
before any pair is yielded; the `while` loop is only ever entered with
`num_step = some m`, where it runs exactly `m` iterations. -/

/-- Embedding of `np.arange(stop)` for the `ts` line of the generator: `stop=None` raises
`TypeError` (numpy does not accept `None`), otherwise `0..stop-1`. -/
def arangeOpt (stop : Option ℕ) : Except String (List ℕ) :=
  match stop with
  | none => .error "TypeError: np.arange does not accept a None stop"
  | some m => .ok (List.range m)

/-- The `while` loop of `evolve`, with `r` the remaining iteration count
(`num_step - cnt`) and `t` the running time: each iteration computes the
phased coefficients at the current `t`, advances `t` by `timestep`, and
yields the advanced time with the wavefunction `c @ psi`. -/
noncomputable def evolveLoop (n N : ℕ) (coeff : Fin n → ℂ)
    (psi : Fin n → Fin N → ℂ) (E : Fin n → ℝ) (eta timestep : ℝ) :
    ℕ → ℝ → List (ℝ × (Fin N → ℂ))
  | 0, _ => []
  | r + 1, t =>
      let c := fun m => coeff m *
        Complex.exp (-Complex.I * ((E m : ℂ)) / (eta : ℂ) * ((t : ℝ) : ℂ))
      (t + timestep, fun x => ∑ m, c m * psi m x) ::
        evolveLoop n N coeff psi E eta timestep r (t + timestep)

/-- The `evolve` generator, fully consumed: first the `ts` line runs
(`np.arange(num_step)`, which raises on `None`), then the loop yields
its pairs.  The loop argument `numStep.getD 0` is only reached when
`arangeOpt` succeeded, i.e. when `numStep = some m`, where it is `m`. -/
noncomputable def evolveGen (n N : ℕ) (coeff : Fin n → ℂ)
    (psi : Fin n → Fin N → ℂ) (E : Fin n → ℝ) (eta timestep : ℝ)
    (numStep : Option ℕ) : Except String (List (ℝ × (Fin N → ℂ))) :=
  (arangeOpt numStep).map
    (fun _ts => evolveLoop n N coeff psi E eta timestep (numStep.getD 0) 0)

theorem evolveLoop_length (n N : ℕ) (coeff : Fin n → ℂ)
    (psi : Fin n → Fin N → ℂ) (E : Fin n → ℝ) (eta timestep : ℝ) :
    ∀ (r : ℕ) (t0 : ℝ),
      (evolveLoop n N coeff psi E eta timestep r t0).length = r := by
  intro r
  induction r with
  | zero => intro t0; rfl
  | succ r ih =>
      intro t0
      show (evolveLoop n N coeff psi E eta timestep r (t0 + timestep)).length + 1 = r + 1
      rw [ih]

theorem evolveLoop_get (n N : ℕ) (coeff : Fin n → ℂ)
    (psi : Fin n → Fin N → ℂ) (E : Fin n → ℝ) (eta timestep : ℝ) :
    ∀ (r : ℕ) (t0 : ℝ) (k : ℕ) (hk : k < r),
      (evolveLoop n N coeff psi E eta timestep r t0).get
          ⟨k, by rw [evolveLoop_length]; exact hk⟩ =
        (t0 + ((k : ℝ) + 1) * timestep,
         fun x => ∑ m, coeff m *
           Complex.exp (-Complex.I * ((E m : ℂ)) / (eta : ℂ) *
             (((t0 + (k : ℝ) * timestep : ℝ)) : ℂ)) * psi m x) := by
  intro r
  induction r with
  | zero => intro t0 k hk; exact absurd hk (Nat.not_lt_zero k)
  | succ r ih =>
      intro t0 k hk
      match k with
      | 0 =>
          refine Eq.trans
            (show _ = (t0 + timestep, fun x => ∑ m, coeff m *
                Complex.exp (-Complex.I * ((E m : ℂ)) / (eta : ℂ) *
                  ((t0 : ℝ) : ℂ)) * psi m x) from rfl) ?_
          refine Prod.ext ?_ ?_
          · dsimp only
            push_cast
            ring
          · dsimp only
            funext x
            refine Finset.sum_congr rfl (fun m _ => ?_)
            have harg : (((t0 + ((0 : ℕ) : ℝ) * timestep : ℝ)) : ℂ) =
                ((t0 : ℝ) : ℂ) := by
              push_cast
              ring
            rw [harg]
      | k' + 1 =>
          have hk' : k' < r := Nat.lt_of_succ_lt_succ hk
          refine Eq.trans
            (show _ = (evolveLoop n N coeff psi E eta timestep r (t0 + timestep)).get
                ⟨k', by rw [evolveLoop_length]; exact hk'⟩ from rfl) ?_
          rw [ih (t0 + timestep) k' hk']
          refine Prod.ext ?_ ?_
          · dsimp only
            push_cast
            ring
          · dsimp only
            funext x
            refine Finset.sum_congr rfl (fun m _ => ?_)
            have harg : ((t0 + timestep + (k' : ℝ) * timestep : ℝ) : ℂ) =
                (((t0 + (((k' + 1) : ℕ) : ℝ) * timestep : ℝ)) : ℂ) := by
              push_cast
              ring
            rw [harg]

/-- C9 counterexample: called with `num_step=None`, the generator does
not run forever — the `ts = np.arange(num_step)*timestep` line raises a
`TypeError` on the first advance, before the loop, so the generator
terminates having yielded no pair at all (here at concrete inputs on
`Fin 1` with `timestep = 1`). -/
theorem evolve_none_raises_before_loop :
    evolveGen 1 1 (fun _ => 1) (fun _ _ => 1) (fun _ => 1) 1 1 none =
      .error "TypeError: np.arange does not accept a None stop" := rfl

/-- C9 (amended): for inputs sharing the index type `Fin n` (the `assert len(coeff) == len(psi) == len(E)` of the generator) and
`num_step = n`, the fully consumed generator yields exactly `n` pairs,
the `k`-th (0-based) being
`((k+1)*timestep, (coeff * exp(-1j*E*(k*timestep)/eta)) @ psi)` — the
yielded time label one `timestep` ahead of the time at which the phases
are evaluated; with `num_step=None` the generator raises `TypeError`
from `np.arange(None)` before yielding anything. -/
theorem evolve_generator_spec (n N : ℕ) (coeff : Fin n → ℂ)
    (psi : Fin n → Fin N → ℂ) (E : Fin n → ℝ) (eta timestep : ℝ) (m : ℕ) :
    evolveGen n N coeff psi E eta timestep (some m) =
      .ok (evolveLoop n N coeff psi E eta timestep m 0) ∧
    (evolveLoop n N coeff psi E eta timestep m 0).length = m ∧
    (∀ k : Fin m,
      (evolveLoop n N coeff psi E eta timestep m 0).get
          (Fin.cast (evolveLoop_length n N coeff psi E eta timestep m 0).symm k) =
        ((((k : ℕ) : ℝ) + 1) * timestep,
         fun x => ∑ m', coeff m' *
           Complex.exp (-Complex.I * ((E m' : ℂ)) *
             ((((k : ℕ) : ℝ) * timestep : ℝ) : ℂ) / (eta : ℂ)) * psi m' x)) ∧
    evolveGen n N coeff psi E eta timestep none =
      .error "TypeError: np.arange does not accept a None stop" := by
  refine ⟨rfl, evolveLoop_length n N coeff psi E eta timestep m 0, ?_, rfl⟩
  intro k
  have hget := evolveLoop_get n N coeff psi E eta timestep m 0 (k : ℕ) k.isLt
  refine Eq.trans hget ?_
  refine Prod.ext ?_ ?_
  · dsimp only
    ring
  · dsimp only
    funext x
    refine Finset.sum_congr rfl (fun m' _ => ?_)
    have hexp : -Complex.I * ((E m' : ℂ)) / (eta : ℂ) *
          (((0 : ℝ) + ((k : ℕ) : ℝ) * timestep : ℝ) : ℂ) =
        -Complex.I * ((E m' : ℂ)) *
          ((((k : ℕ) : ℝ) * timestep : ℝ) : ℂ) / (eta : ℂ) := by
      push_cast
      ring
    rw [hexp]

/-! Section: HW4: probabilities from measurement counts

Notebook source:

    probs = {}
    total_counts = len(bitstrings)
    total_prob = 0

    for state in counts.keys():
        probs[state] = counts[state]/total_counts
        total_prob += counts[state]/total_counts

    print(...)

The counts dictionary is embedded as an association list; the loop is a
fold accumulating the `probs` entries and the running `total_prob`. -/

/-- The `probs` cell of HW4: returns the `probs` association list and
the accumulated `total_prob`. -/
def probsCell (counts : List (String × ℕ)) (total : ℕ) :
    List (String × ℚ) × ℚ :=
  counts.foldl
    (fun acc sc =>
      (acc.1 ++ [(sc.1, (sc.2 : ℚ) / (total : ℚ))],
       acc.2 + (sc.2 : ℚ) / (total : ℚ)))
    ([], 0)

theorem probsCell_foldl (total : ℕ) :
    ∀ (counts : List (String × ℕ)) (acc : List (String × ℚ) × ℚ),
      counts.foldl
        (fun acc sc =>
          (acc.1 ++ [(sc.1, (sc.2 : ℚ) / (total : ℚ))],
           acc.2 + (sc.2 : ℚ) / (total : ℚ))) acc =
      (acc.1 ++ counts.map (fun sc => (sc.1, (sc.2 : ℚ) / (total : ℚ))),
       acc.2 + (counts.map (fun sc => (sc.2 : ℚ) / (total : ℚ))).sum) := by
  intro counts
  induction counts with
  | nil => intro acc; simp
  | cons hd tl ih =>
      intro acc
      rw [List.foldl_cons, ih]
      simp [add_assoc]

/-- The `probs` cell characterized: each `probs[state]` is exactly the
count divided by the number of shots, and `total_prob` is the sum of
those quotients. -/
theorem probsCell_spec (counts : List (String × ℕ)) (total : ℕ) :
    (probsCell counts total).1 =
      counts.map (fun sc => (sc.1, (sc.2 : ℚ) / (total : ℚ))) ∧
    (probsCell counts total).2 =
      (counts.map (fun sc => (sc.2 : ℚ) / (total : ℚ))).sum := by
  rw [probsCell, probsCell_foldl]
  constructor
  · rw [List.nil_append]
  · rw [zero_add]

/-! Section: Statement-level transcription of the notebooks

Each code statement of the two notebooks (including statements nested in
`def` bodies, loops and the `try` block, each as its own entry, with the
enclosing construct itself one entry) is transcribed with
* its (sanitized) source text,
* its syntactic kind — in particular `assertLine` for `assert`
  statements, `tryExceptBlock` for a `try/except` construct, `raiseLine`
  and `withBlock` for the absent `raise` / `with` constructs,
* its observable effect: in-process state only, printed text, or a
  matplotlib/qiskit figure; `fileWrite`, `networkWrite` and `dbWrite`
  are the effects that never occur,
* its API category (meaningful for the HW4 qiskit tour; every HW2
  statement is `localNumeric`).

Markdown cells and comment-only cells contain no statements. -/

/-- Syntactic kind of a transcribed Python statement. -/
inductive PyKind
  | importLine
  | magicLine
  | assignStmt
  | defLine
  | returnLine
  | assertLine
  | tryExceptBlock
  | raiseLine
  | withBlock
  | forLine
  | whileLine
  | ifLine
  | yieldLine
  | exprCall
deriving DecidableEq

/-- Observable effect of a transcribed statement. -/
inductive Eff
  | inProcessState
  | printedText
  | figureOutput
  | fileWrite
  | networkWrite
  | dbWrite
deriving DecidableEq

/-- API category of a transcribed statement (for the HW4 qiskit tour). -/
inductive ApiCat
  | localNumeric
  | setupStep
  | circuitBuild
  | transpileStep
  | samplingStep
  | visualOutput
  | originalComp
deriving DecidableEq

/-- One transcribed source statement. -/
structure SrcStmt where
  desc : String
  kind : PyKind
  eff : Eff
  api : ApiCat

/-- Number of statements of kind `k` in a statement list. -/
def countKind (k : PyKind) (l : List SrcStmt) : ℕ :=
  l.countP (fun s => decide (s.kind = k))

/-- All code statements of `HW2_quantum_phenomena.ipynb`, in source
order, split into four chunks (concatenated below). -/
def hw2StmtsA : List SrcStmt := [

  -- cell: imports
  ⟨"import numpy as np", .importLine, .inProcessState, .localNumeric⟩,
  ⟨"%matplotlib widget", .magicLine, .inProcessState, .localNumeric⟩,
  ⟨"import matplotlib.pyplot as plt", .importLine, .inProcessState, .localNumeric⟩,
  -- cell: parameters and barrier potential
  ⟨"N = 300", .assignStmt, .inProcessState, .localNumeric⟩,
  ⟨"L = 100", .assignStmt, .inProcessState, .localNumeric⟩,
  ⟨"w = 30", .assignStmt, .inProcessState, .localNumeric⟩,
  ⟨"def V(x):", .defLine, .inProcessState, .localNumeric⟩,
  ⟨"n = len(x)", .assignStmt, .inProcessState, .localNumeric⟩,
  ⟨"V = np.ones(n)*0", .assignStmt, .inProcessState, .localNumeric⟩,
  ⟨"V[np.abs(x)<=w/2] = 0.05", .assignStmt, .inProcessState, .localNumeric⟩,
  ⟨"return V", .returnLine, .inProcessState, .localNumeric⟩,
  ⟨"eta = 1", .assignStmt, .inProcessState, .localNumeric⟩,
  ⟨"m = 1", .assignStmt, .inProcessState, .localNumeric⟩,
  ⟨"q = 1", .assignStmt, .inProcessState, .localNumeric⟩,
  -- cell: grid
  ⟨"X = np.linspace(0,L,num=N) - L/2", .assignStmt, .inProcessState, .localNumeric⟩,
  ⟨"a = X[1] - X[0]", .assignStmt, .inProcessState, .localNumeric⟩,
  ⟨"t = -eta**2 / (2 * m * a**2)", .assignStmt, .inProcessState, .localNumeric⟩,
  ⟨"eps = -2*t + q * V(X)", .assignStmt, .inProcessState, .localNumeric⟩,
  -- cell: potential figure
  ⟨"plt.figure(figsize=(3,2))", .exprCall, .figureOutput, .localNumeric⟩,
  ⟨"plt.plot(X, V(X))", .exprCall, .figureOutput, .localNumeric⟩,
  ⟨"plt.xlabel(\x27x\x27)", .exprCall, .figureOutput, .localNumeric⟩,
  ⟨"plt.ylabel(\x27V(x)\x27)", .exprCall, .figureOutput, .localNumeric⟩,
  ⟨"plt.title(\x27Potential Energy Surface\x27)", .exprCall, .figureOutput, .localNumeric⟩,
  ⟨"plt.tight_layout()", .exprCall, .figureOutput, .localNumeric⟩,
  -- cell: hamiltonian
  ⟨"H = t*np.eye(N, k=-1) + eps*np.eye(N) + t*np.eye(N, k=1)", .assignStmt, .inProcessState, .localNumeric⟩,
  -- cell: eigendecomposition
  ⟨"vals, vecs = np.linalg.eig(H)", .assignStmt, .inProcessState, .localNumeric⟩,
  -- cell: reorder and normalize
  ⟨"order = np.argsort(vals)", .assignStmt, .inProcessState, .localNumeric⟩,
  ⟨"vals, vecs = vals[order], vecs[:, order]", .assignStmt, .inProcessState, .localNumeric⟩,
  ⟨"vecs = vecs.T", .assignStmt, .inProcessState, .localNumeric⟩,
  ⟨"vecs /= np.sqrt(a)", .assignStmt, .inProcessState, .localNumeric⟩,
  ⟨"print()", .exprCall, .printedText, .localNumeric⟩,
  -- cell: potential and ground-state figures
  ⟨"plt.figure(figsize=(8,2))", .exprCall, .figureOutput, .localNumeric⟩,
  ⟨"plt.plot(X, V(X))", .exprCall, .figureOutput, .localNumeric⟩,
  ⟨"plt.xlabel(\x27x\x27)", .exprCall, .figureOutput, .localNumeric⟩,
  ⟨"plt.ylabel(\x27V(x)\x27)", .exprCall, .figureOutput, .localNumeric⟩,
  ⟨"plt.title(\x27Potential Energy Surface\x27)", .exprCall, .figureOutput, .localNumeric⟩,
  ⟨"plt.tight_layout()", .exprCall, .figureOutput, .localNumeric⟩,
  ⟨"plt.figure(figsize=(8,2))", .exprCall, .figureOutput, .localNumeric⟩,
  ⟨"plt.plot(X, vecs[0,:])", .exprCall, .figureOutput, .localNumeric⟩,
  ⟨"plt.xlabel(\x27x\x27)", .exprCall, .figureOutput, .localNumeric⟩,
  ⟨"plt.ylabel(\x27Psi 0\x27)", .exprCall, .figureOutput, .localNumeric⟩,
  ⟨"plt.title(\x27Lowest Energy Eigenfunction ... (E_0 = ...)\x27.format(vals[0]))", .exprCall, .figureOutput, .localNumeric⟩,
  ⟨"plt.tight_layout()", .exprCall, .figureOutput, .localNumeric⟩,
  ⟨"print(f\"The lowest energy eigenvalue ... \" + ...)", .exprCall, .printedText, .localNumeric⟩,
  -- cell: eight eigenfunction subplots
  ⟨"print()", .exprCall, .printedText, .localNumeric⟩]

def hw2StmtsB : List SrcStmt := [
  ⟨"fig, axes = plt.subplots(8, sharex=True, sharey=True)", .assignStmt, .figureOutput, .localNumeric⟩,
  ⟨"plt.sca(axes[0])", .exprCall, .figureOutput, .localNumeric⟩,
  ⟨"plt.title(\x27Energy eigenfunctions of a particle in a box, with a barrier\x27)", .exprCall, .figureOutput, .localNumeric⟩,
  ⟨"for i, (ax, psi, E) in enumerate(zip(axes, vecs, vals)):", .forLine, .inProcessState, .localNumeric⟩,
  ⟨"plt.sca(ax)", .exprCall, .figureOutput, .localNumeric⟩,
  ⟨"plt.ylabel(\x27Psi \x7b\x7d\x27.format(i))", .exprCall, .figureOutput, .localNumeric⟩,
  ⟨"plt.plot(X, psi)", .exprCall, .figureOutput, .localNumeric⟩,
  ⟨"print(\x27E_\x7b\x7d = \x7b:.4f\x7d\x27.format(i, E))", .exprCall, .printedText, .localNumeric⟩,
  ⟨"plt.xlabel(\x27x\x27)", .exprCall, .figureOutput, .localNumeric⟩,
  -- cell: probability densities
  ⟨"p = np.abs(vecs)**2", .assignStmt, .inProcessState, .localNumeric⟩,
  -- cell: density subplots
  ⟨"fig, axes = plt.subplots(8, sharex=True, sharey=True)", .assignStmt, .figureOutput, .localNumeric⟩,
  ⟨"plt.sca(axes[0])", .exprCall, .figureOutput, .localNumeric⟩,
  ⟨"plt.title(\x27Position Distributions of a Particle in a Box with Barrier\x27)", .exprCall, .figureOutput, .localNumeric⟩,
  ⟨"for i, (ax, p_i) in enumerate(zip(axes, p)):", .forLine, .inProcessState, .localNumeric⟩,
  ⟨"plt.sca(ax)", .exprCall, .figureOutput, .localNumeric⟩,
  ⟨"plt.ylabel(\x27p_\x7b\x7d(x)\x27.format(i))", .exprCall, .figureOutput, .localNumeric⟩,
  ⟨"plt.plot(X, p_i)", .exprCall, .figureOutput, .localNumeric⟩,
  ⟨"plt.fill_between(X, p_i, alpha=0.3)", .exprCall, .figureOutput, .localNumeric⟩,
  ⟨"plt.xlabel(\x27x\x27)", .exprCall, .figureOutput, .localNumeric⟩,
  -- cell: probability of being in the barrier
  ⟨"B = V(X) != 0", .assignStmt, .inProcessState, .localNumeric⟩,
  ⟨"barrier = a * p[:, B].sum(-1)", .assignStmt, .inProcessState, .localNumeric⟩,
  ⟨"num = 8", .assignStmt, .inProcessState, .localNumeric⟩,
  ⟨"fig, (ax1, ax2) = plt.subplots(1,2)", .assignStmt, .figureOutput, .localNumeric⟩,
  ⟨"plt.sca(ax1)", .exprCall, .figureOutput, .localNumeric⟩,
  ⟨"plt.title(\x27Energy Eigenvalue\x27)", .exprCall, .figureOutput, .localNumeric⟩,
  ⟨"plt.plot(np.arange(num), vals[:num], color=\x27b\x27, ls=\x27\x27, marker=\x27x\x27)", .exprCall, .figureOutput, .localNumeric⟩,
  ⟨"plt.plot(np.arange(num), np.ones(num)*V(X)[B].mean(), ls=\x27--\x27)", .exprCall, .figureOutput, .localNumeric⟩,
  ⟨"plt.xlabel(\x27Level\x27)", .exprCall, .figureOutput, .localNumeric⟩,
  ⟨"plt.ylabel(\x27Energy (arb units)\x27)", .exprCall, .figureOutput, .localNumeric⟩,
  ⟨"plt.sca(ax2)", .exprCall, .figureOutput, .localNumeric⟩,
  ⟨"plt.title(\x27Probability of Being in Barrier\x27)", .exprCall, .figureOutput, .localNumeric⟩,
  ⟨"plt.plot(np.arange(num), barrier[:num], color=\x27r\x27, ls=\x27\x27, marker=\x27o\x27)", .exprCall, .figureOutput, .localNumeric⟩,
  ⟨"plt.xlabel(\x27Level\x27)", .exprCall, .figureOutput, .localNumeric⟩,
  ⟨"plt.ylabel(\x27Probability\x27)", .exprCall, .figureOutput, .localNumeric⟩,
  ⟨"fig.tight_layout()", .exprCall, .figureOutput, .localNumeric⟩,
  ⟨"print()", .exprCall, .printedText, .localNumeric⟩,
  ⟨"print(\x27Level | Energy Eigenvalue | Prob(B)\x27)", .exprCall, .printedText, .localNumeric⟩,
  ⟨"print(\x27------+-------------------+--------\x27)", .exprCall, .printedText, .localNumeric⟩,
  ⟨"for i, (E, prob_barrier) in enumerate(zip(vals[:8], barrier)):", .forLine, .inProcessState, .localNumeric⟩,
  ⟨"print(\x27... | ... | ...\x27.format(i, E, prob_barrier))", .exprCall, .printedText, .localNumeric⟩,
  -- cell: animation imports
  ⟨"import matplotlib.animation as animation", .importLine, .inProcessState, .localNumeric⟩,
  ⟨"np.set_printoptions(precision=4, linewidth=110)", .exprCall, .inProcessState, .localNumeric⟩,
  ⟨"print()", .exprCall, .printedText, .localNumeric⟩,
  -- cell: consolidated harmonic solve
  ⟨"N = 200", .assignStmt, .inProcessState, .localNumeric⟩,
  ⟨"L = 100", .assignStmt, .inProcessState, .localNumeric⟩]

def hw2StmtsC : List SrcStmt := [
  ⟨"def V(x):", .defLine, .inProcessState, .localNumeric⟩,
  ⟨"return 0.001 * x**2", .returnLine, .inProcessState, .localNumeric⟩,
  ⟨"eta = 1", .assignStmt, .inProcessState, .localNumeric⟩,
  ⟨"m = 1", .assignStmt, .inProcessState, .localNumeric⟩,
  ⟨"q = 1", .assignStmt, .inProcessState, .localNumeric⟩,
  ⟨"X = np.linspace(0,L,num=N) - L/2", .assignStmt, .inProcessState, .localNumeric⟩,
  ⟨"a = X[1] - X[0]", .assignStmt, .inProcessState, .localNumeric⟩,
  ⟨"t = -eta**2 / (2 * m * a**2)", .assignStmt, .inProcessState, .localNumeric⟩,
  ⟨"eps = -2*t + q * V(X)", .assignStmt, .inProcessState, .localNumeric⟩,
  ⟨"H = t*np.eye(N, k=-1) + eps*np.eye(N) + t*np.eye(N, k=1)", .assignStmt, .inProcessState, .localNumeric⟩,
  ⟨"vals, vecs = np.linalg.eig(H)", .assignStmt, .inProcessState, .localNumeric⟩,
  ⟨"order = np.argsort(vals)", .assignStmt, .inProcessState, .localNumeric⟩,
  ⟨"vals, vecs = vals[order], vecs[:, order]", .assignStmt, .inProcessState, .localNumeric⟩,
  ⟨"vecs = vecs.T", .assignStmt, .inProcessState, .localNumeric⟩,
  ⟨"vecs /= np.sqrt(a)", .assignStmt, .inProcessState, .localNumeric⟩,
  -- cell: harmonic potential figure
  ⟨"plt.figure(figsize=(3,2))", .exprCall, .figureOutput, .localNumeric⟩,
  ⟨"plt.plot(X, V(X))", .exprCall, .figureOutput, .localNumeric⟩,
  ⟨"plt.xlabel(\x27x\x27)", .exprCall, .figureOutput, .localNumeric⟩,
  ⟨"plt.ylabel(\x27V(x)\x27)", .exprCall, .figureOutput, .localNumeric⟩,
  ⟨"plt.title(\x27Potential Energy Surface\x27)", .exprCall, .figureOutput, .localNumeric⟩,
  ⟨"plt.tight_layout()", .exprCall, .figureOutput, .localNumeric⟩,
  -- cell: superposition coefficients
  ⟨"cutoff = 20", .assignStmt, .inProcessState, .localNumeric⟩,
  ⟨"psi = vecs[:cutoff].astype(np.complex64)", .assignStmt, .inProcessState, .localNumeric⟩,
  ⟨"E = vals[:cutoff]", .assignStmt, .inProcessState, .localNumeric⟩,
  ⟨"coeff = np.zeros(cutoff, dtype=np.complex64)", .assignStmt, .inProcessState, .localNumeric⟩,
  ⟨"coeff[4] = 1", .assignStmt, .inProcessState, .localNumeric⟩,
  ⟨"coeff[0] = 1j", .assignStmt, .inProcessState, .localNumeric⟩,
  ⟨"coeff[3] = -2.5", .assignStmt, .inProcessState, .localNumeric⟩,
  ⟨"print()", .exprCall, .printedText, .localNumeric⟩,
  -- cell: normalization with try/except
  ⟨"try: ... except AssertionError: ...", .tryExceptBlock, .inProcessState, .localNumeric⟩,
  ⟨"norm = (np.abs(coeff)**2).sum()", .assignStmt, .inProcessState, .localNumeric⟩,
  ⟨"assert norm > 0", .assertLine, .inProcessState, .localNumeric⟩,
  ⟨"coeff /= np.sqrt(norm)", .assignStmt, .inProcessState, .localNumeric⟩,
  ⟨"print(\x27Error: Norm is zero, you must set the coeffients to nonzero\x27)", .exprCall, .printedText, .localNumeric⟩,
  ⟨"print(\x27\\nCoeffients:\x27, coeff)", .exprCall, .printedText, .localNumeric⟩,
  -- cell: evolve generator
  ⟨"def evolve(coeff, psi, E, timestep=5, num_step=300):", .defLine, .inProcessState, .localNumeric⟩,
  ⟨"assert len(coeff) == len(psi) == len(E)", .assertLine, .inProcessState, .localNumeric⟩,
  ⟨"ts = np.arange(num_step)*timestep", .assignStmt, .inProcessState, .localNumeric⟩,
  ⟨"t = 0", .assignStmt, .inProcessState, .localNumeric⟩,
  ⟨"cnt = 0", .assignStmt, .inProcessState, .localNumeric⟩,
  ⟨"while num_step is None or cnt < num_step:", .whileLine, .inProcessState, .localNumeric⟩,
  ⟨"c = coeff * np.exp(- 1j * E / eta * t)", .assignStmt, .inProcessState, .localNumeric⟩,
  ⟨"cnt += 1", .assignStmt, .inProcessState, .localNumeric⟩,
  ⟨"t += timestep", .assignStmt, .inProcessState, .localNumeric⟩,
  ⟨"yield t, c @ psi", .yieldLine, .inProcessState, .localNumeric⟩]

def hw2StmtsD : List SrcStmt := [
  -- cell: animation
  ⟨"timestep = 1", .assignStmt, .inProcessState, .localNumeric⟩,
  ⟨"num_step = 300", .assignStmt, .inProcessState, .localNumeric⟩,
  ⟨"if timestep is None:", .ifLine, .inProcessState, .localNumeric⟩,
  ⟨"av_E = (coeff)**2 @ E", .assignStmt, .inProcessState, .localNumeric⟩,
  ⟨"timestep = 2*np.pi * eta / av_E / num_step", .assignStmt, .inProcessState, .localNumeric⟩,
  ⟨"print(\x27Using timestep: \x7b:.4f\x7d\x27.format(timestep))", .exprCall, .printedText, .localNumeric⟩,
  ⟨"evolution = evolve(coeff, psi, E, timestep=timestep, num_step=num_step)", .assignStmt, .inProcessState, .localNumeric⟩,
  ⟨"print(\x27\\nReal component in blue, imaginary in red\x27)", .exprCall, .printedText, .localNumeric⟩,
  ⟨"fig, (ax1, ax2) = plt.subplots(2, sharex=True)", .assignStmt, .figureOutput, .localNumeric⟩,
  ⟨"ax1.set_title(\x27Wavefunction\x27)", .exprCall, .figureOutput, .localNumeric⟩,
  ⟨"ax1.set_ylabel(\x27psi(x)\x27)", .exprCall, .figureOutput, .localNumeric⟩,
  ⟨"ax2.set_title(\x27Probability Density\x27)", .exprCall, .figureOutput, .localNumeric⟩,
  ⟨"ax2.set_ylabel(\x27p(x)\x27)", .exprCall, .figureOutput, .localNumeric⟩,
  ⟨"ax2.set_xlabel(\x27x\x27)", .exprCall, .figureOutput, .localNumeric⟩,
  ⟨"wave = (coeff @ psi)", .assignStmt, .inProcessState, .localNumeric⟩,
  ⟨"wave_real, = ax1.plot(X, wave.real, c=\x27b\x27)", .assignStmt, .figureOutput, .localNumeric⟩,
  ⟨"wave_imag, = ax1.plot(X, wave.imag, c=\x27r\x27)", .assignStmt, .figureOutput, .localNumeric⟩,
  ⟨"p = np.abs(wave)**2", .assignStmt, .inProcessState, .localNumeric⟩,
  ⟨"dens, = ax2.plot(X, p, color=\x27k\x27)", .assignStmt, .figureOutput, .localNumeric⟩,
  ⟨"ax1.grid()", .exprCall, .figureOutput, .localNumeric⟩,
  ⟨"ax2.grid()", .exprCall, .figureOutput, .localNumeric⟩,
  ⟨"lim = np.sqrt(p).max()+0.1", .assignStmt, .inProcessState, .localNumeric⟩,
  ⟨"ax1.set_ylim(-lim, lim)", .exprCall, .figureOutput, .localNumeric⟩,
  ⟨"ax2.set_ylim(-1e-4, max(p)+0.02)", .exprCall, .figureOutput, .localNumeric⟩,
  ⟨"def run(data):", .defLine, .inProcessState, .localNumeric⟩,
  ⟨"t, wave = data", .assignStmt, .inProcessState, .localNumeric⟩,
  ⟨"ax1.set_title(\x27Wavefunction (t=\x7b:.2f\x7d)\x27.format(t))", .exprCall, .figureOutput, .localNumeric⟩,
  ⟨"wave_real.set_data(X, wave.real)", .exprCall, .figureOutput, .localNumeric⟩,
  ⟨"wave_imag.set_data(X, wave.imag)", .exprCall, .figureOutput, .localNumeric⟩,
  ⟨"p = np.abs(wave)**2", .assignStmt, .inProcessState, .localNumeric⟩,
  ⟨"dens.set_data(X, p)", .exprCall, .figureOutput, .localNumeric⟩,
  ⟨"return wave_real, wave_imag, dens", .returnLine, .inProcessState, .localNumeric⟩,
  ⟨"ani = animation.FuncAnimation(fig, run, evolution, blit=False, interval=10, repeat=False, save_count=1000)", .assignStmt, .figureOutput, .localNumeric⟩,
  ⟨"plt.show()", .exprCall, .figureOutput, .localNumeric⟩]

/-- All code statements of `HW2_quantum_phenomena.ipynb`, in source order. -/
def hw2Stmts : List SrcStmt := hw2StmtsA ++ hw2StmtsB ++ hw2StmtsC ++ hw2StmtsD

/-- All code statements of `HW4_cats_and_qubits.ipynb`, in source order
(the three answer cells contain only comments, hence no statements). -/
def hw4Stmts : List SrcStmt := [
  -- cell: imports
  ⟨"import numpy as np", .importLine, .inProcessState, .setupStep⟩,
  ⟨"%matplotlib widget", .magicLine, .inProcessState, .setupStep⟩,
  ⟨"import matplotlib.pyplot as plt", .importLine, .inProcessState, .setupStep⟩,
  ⟨"from qiskit import QuantumCircuit", .importLine, .inProcessState, .setupStep⟩,
  ⟨"from qiskit.primitives import StatevectorSampler", .importLine, .inProcessState, .setupStep⟩,
  ⟨"from qiskit_aer import AerSimulator", .importLine, .inProcessState, .setupStep⟩,
  ⟨"from qiskit.visualization import plot_histogram", .importLine, .inProcessState, .setupStep⟩,
  ⟨"from qiskit.transpiler.preset_passmanagers import generate_preset_pass_manager", .importLine, .inProcessState, .setupStep⟩,
  -- cell: one-qubit circuit
  ⟨"qc = QuantumCircuit(1)", .assignStmt, .inProcessState, .circuitBuild⟩,
  -- cell: draw empty circuit
  ⟨"qc.draw(\"mpl\")", .exprCall, .figureOutput, .visualOutput⟩,
  ⟨"plt.draw()", .exprCall, .figureOutput, .visualOutput⟩,
  -- cell: hadamard and measurement
  ⟨"qc.h(0)", .exprCall, .inProcessState, .circuitBuild⟩,
  ⟨"qc.measure_all()", .exprCall, .inProcessState, .circuitBuild⟩,
  ⟨"qc.draw(\"mpl\")", .exprCall, .figureOutput, .visualOutput⟩,
  ⟨"plt.draw()", .exprCall, .figureOutput, .visualOutput⟩,
  -- cell: statevector sampler run
  ⟨"sampler = StatevectorSampler()", .assignStmt, .inProcessState, .samplingStep⟩,
  ⟨"result = sampler.run([qc]).result()", .assignStmt, .inProcessState, .samplingStep⟩,
  ⟨"data = result[0].data", .assignStmt, .inProcessState, .samplingStep⟩,
  -- cell: bitstrings
  ⟨"bitstrings = data.meas.get_bitstrings()", .assignStmt, .inProcessState, .samplingStep⟩,
  ⟨"print(f\"The number of bitstrings is: \x7blen(bitstrings)\x7d\")", .exprCall, .printedText, .visualOutput⟩,
  -- cell: counts
  ⟨"counts = data.meas.get_counts()", .assignStmt, .inProcessState, .samplingStep⟩,
  ⟨"print(f\"The counts are: \x7bcounts\x7d\")", .exprCall, .printedText, .visualOutput⟩,
  ⟨"plot_histogram(counts)", .exprCall, .figureOutput, .visualOutput⟩,
  ⟨"plt.draw()", .exprCall, .figureOutput, .visualOutput⟩,
  -- cell: probabilities from counts
  ⟨"probs = \x7b\x7d", .assignStmt, .inProcessState, .originalComp⟩,
  ⟨"total_counts = len(bitstrings)", .assignStmt, .inProcessState, .originalComp⟩,
  ⟨"total_prob = 0", .assignStmt, .inProcessState, .originalComp⟩,
  ⟨"for state in counts.keys():", .forLine, .inProcessState, .originalComp⟩,
  ⟨"probs[state] = counts[state]/total_counts", .assignStmt, .inProcessState, .originalComp⟩,
  ⟨"total_prob += counts[state]/total_counts", .assignStmt, .inProcessState, .originalComp⟩,
  ⟨"print(f\"The probabilities of each state: \x7bprobs\x7d\")", .exprCall, .printedText, .visualOutput⟩,
  -- cell: two-qubit circuit
  ⟨"qc = QuantumCircuit(2)", .assignStmt, .inProcessState, .circuitBuild⟩,
  ⟨"qc.draw(\"mpl\")", .exprCall, .figureOutput, .visualOutput⟩,
  ⟨"plt.draw()", .exprCall, .figureOutput, .visualOutput⟩,
  -- cell: hadamard on qubit 0
  ⟨"qc.h(0)", .exprCall, .inProcessState, .circuitBuild⟩,
  ⟨"qc.draw(\"mpl\")", .exprCall, .figureOutput, .visualOutput⟩,
  ⟨"plt.draw()", .exprCall, .figureOutput, .visualOutput⟩,
  -- cell: cnot and measurement
  ⟨"qc.cx(0,1)", .exprCall, .inProcessState, .circuitBuild⟩,
  ⟨"qc.measure_all()", .exprCall, .inProcessState, .circuitBuild⟩,
  ⟨"qc.draw(\"mpl\")", .exprCall, .figureOutput, .visualOutput⟩,
  ⟨"plt.draw()", .exprCall, .figureOutput, .visualOutput⟩,
  -- cell: transpile for FakeSherbrooke and run
  ⟨"from qiskit_ibm_runtime.fake_provider import FakeSherbrooke", .importLine, .inProcessState, .setupStep⟩,
  ⟨"from qiskit import transpile", .importLine, .inProcessState, .setupStep⟩,
  ⟨"backend = FakeSherbrooke()", .assignStmt, .inProcessState, .samplingStep⟩,
  ⟨"transpiled_circuit = transpile(qc, backend)", .assignStmt, .inProcessState, .transpileStep⟩,
  ⟨"job = backend.run(transpiled_circuit)", .assignStmt, .inProcessState, .samplingStep⟩,
  ⟨"counts = job.result().get_counts()", .assignStmt, .inProcessState, .samplingStep⟩,
  ⟨"print(f\"The counts are: \x7bcounts\x7d\")", .exprCall, .printedText, .visualOutput⟩,
  ⟨"plot_histogram(counts)", .exprCall, .figureOutput, .visualOutput⟩,
  ⟨"plt.draw()", .exprCall, .figureOutput, .visualOutput⟩]

/-- All code statements of the repository (the README contains no code). -/
def allStmts : List SrcStmt := hw2Stmts ++ hw4Stmts

/-- Position of the first statement whose transcribed text is `d`. -/
def idxOfStmt (d : String) : ℕ := hw4Stmts.findIdx (fun s => s.desc == d)

/-! Section: Structural claims over the transcription -/

/-- C3 counterexample: the source contains two `assert` statements (the
normalization-cell `assert norm > 0` and the length check in `evolve`), so "exactly one assert statement" is false. -/
theorem two_asserts_not_one :
    countKind PyKind.assertLine allStmts = 2 ∧
    ¬ countKind PyKind.assertLine allStmts = 1 := by
  constructor
  · rfl
  · decide

/-- C3 (amended): the failure handling of the source consists of exactly two
`assert` statements — `assert norm > 0` in the normalization cell and
`assert len(coeff) == len(psi) == len(E)` in `evolve` — plus the single
`try/except AssertionError` block around the first; there is no `raise`
and no `with` anywhere. -/
theorem failure_handling_inventory :
    countKind PyKind.assertLine allStmts = 2 ∧
    (allStmts.filter (fun s => decide (s.kind = PyKind.assertLine))).map
        (fun s => s.desc) =
      ["assert norm > 0", "assert len(coeff) == len(psi) == len(E)"] ∧
    countKind PyKind.tryExceptBlock allStmts = 1 ∧
    countKind PyKind.raiseLine allStmts = 0 ∧
    countKind PyKind.withBlock allStmts = 0 :=
  ⟨rfl, rfl, rfl, rfl, rfl⟩

/-- C4 (amended): exactly one construct in either notebook catches a
raised exception — the `try/except AssertionError` of the normalization
cell — and when it catches (all coefficients zero) execution continues
on the error path: the error line is printed, the cell still reaches
its final print, and `coeff` is unchanged. -/
theorem single_exception_catch :
    countKind PyKind.tryExceptBlock allStmts = 1 ∧
    (allStmts.filter (fun s => decide (s.kind = PyKind.tryExceptBlock))).map
        (fun s => s.desc) =
      ["try: ... except AssertionError: ..."] ∧
    (∀ (n : ℕ) (coeff : Fin n → ℂ), (∀ m, coeff m = 0) →
      normCell n coeff = (coeff, [normErrorMsg, printCoeffMsg])) :=
  ⟨rfl, rfl, normCell_of_all_zero⟩

/-- C4 witness: the inventory fact together with the catching operation
exercised at a concrete all-zero coefficient array on `Fin 2`. -/
theorem single_exception_catch_witness :
    countKind PyKind.tryExceptBlock allStmts = 1 ∧
    normCell 2 (fun _ => 0) = ((fun _ => 0), [normErrorMsg, printCoeffMsg]) :=
  ⟨single_exception_catch.1,
   single_exception_catch.2.2 2 (fun _ => 0) (fun _ => rfl)⟩

/-- C7: every statement of both notebooks confines its effect to
in-process variables, printed text, or matplotlib/qiskit figures — no
statement has a file, network, or database write effect. -/
theorem no_persistent_state_writes :
    ∀ s ∈ allStmts,
      s.eff = Eff.inProcessState ∨ s.eff = Eff.printedText ∨
      s.eff = Eff.figureOutput := by decide

/-- C7 witness: the statement list is nonempty and the theorem applies
to its first statement. -/
theorem no_persistent_state_writes_witness :
    (allStmts.get ⟨0, by decide⟩).eff = Eff.inProcessState ∨
    (allStmts.get ⟨0, by decide⟩).eff = Eff.printedText ∨
    (allStmts.get ⟨0, by decide⟩).eff = Eff.figureOutput :=
  no_persistent_state_writes (allStmts.get ⟨0, by decide⟩)
    (List.get_mem allStmts 0 (by decide))

/-- C5 counterexample: the probs cell performs original computation that
is not a division of a count by the number of shots: with counts
`[("00", 1), ("11", 1)]` over 2 shots it computes `total_prob = 1`,
while every count divided by the shots is `1/2 ≠ 1`; the accumulating
statement is the transcribed `total_prob += counts[state]/total_counts`. -/
theorem total_prob_not_a_division :
    (probsCell [("00", 1), ("11", 1)] 2).2 = 1 ∧
    (∀ sc ∈ [(("00" : String), (1 : ℕ)), ("11", 1)], ¬ ((sc.2 : ℚ) / (2 : ℚ) = 1)) ∧
    (hw4Stmts.get ⟨29, by decide⟩).desc =
      "total_prob += counts[state]/total_counts" := by
  refine ⟨?_, ?_, rfl⟩
  · norm_num [probsCell]
  · intro sc hsc
    fin_cases hsc <;> norm_num

/-- C5 (amended): every statement of the circuit notebook is a setup
import, a circuit-construction call (`QuantumCircuit`, `h`, `cx`,
`measure_all`), the transpilation for `FakeSherbrooke`, a sampling call
(`StatevectorSampler`/`backend.run` and their readouts), a
visualization/printing call, or one of the six probs-cell lines; each
circuit is constructed before it is sampled, and the cat-state circuit
is constructed, then transpiled, then run on the backend; and the probs
own computation of the cell is exactly the per-state division of counts by
the number of shots together with the accumulation of their sum into
(the otherwise unused) `total_prob`. -/
theorem qiskit_api_tour :
    (∀ s ∈ hw4Stmts,
      s.api = ApiCat.setupStep ∨ s.api = ApiCat.circuitBuild ∨
      s.api = ApiCat.transpileStep ∨ s.api = ApiCat.samplingStep ∨
      s.api = ApiCat.visualOutput ∨ s.api = ApiCat.originalComp) ∧
    ((hw4Stmts.filter (fun s => decide (s.api = ApiCat.originalComp))).map
        (fun s => s.desc) =
      ["probs = \x7b\x7d", "total_counts = len(bitstrings)", "total_prob = 0",
       "for state in counts.keys():", "probs[state] = counts[state]/total_counts",
       "total_prob += counts[state]/total_counts"]) ∧
    (idxOfStmt "qc = QuantumCircuit(1)" < idxOfStmt "qc.h(0)" ∧
     idxOfStmt "qc.h(0)" < idxOfStmt "qc.measure_all()" ∧
     idxOfStmt "qc.measure_all()" <
       idxOfStmt "result = sampler.run([qc]).result()" ∧
     idxOfStmt "qc = QuantumCircuit(2)" < idxOfStmt "qc.cx(0,1)" ∧
     idxOfStmt "qc.cx(0,1)" <
       idxOfStmt "transpiled_circuit = transpile(qc, backend)" ∧
     idxOfStmt "transpiled_circuit = transpile(qc, backend)" <
       idxOfStmt "job = backend.run(transpiled_circuit)") ∧
    (∀ (counts : List (String × ℕ)) (total : ℕ),
      (probsCell counts total).1 =
        counts.map (fun sc => (sc.1, (sc.2 : ℚ) / (total : ℚ))) ∧
      (probsCell counts total).2 =
        (counts.map (fun sc => (sc.2 : ℚ) / (total : ℚ))).sum) :=
  ⟨by decide, rfl, by decide, probsCell_spec⟩

/-- C5 witness: the taxonomy fact applied to the first statement of the
notebook, and the probs characterization at a one-entry counts
dictionary. -/
theorem qiskit_api_tour_witness :
    ((hw4Stmts.get ⟨0, by decide⟩).api = ApiCat.setupStep ∨
     (hw4Stmts.get ⟨0, by decide⟩).api = ApiCat.circuitBuild ∨
     (hw4Stmts.get ⟨0, by decide⟩).api = ApiCat.transpileStep ∨
     (hw4Stmts.get ⟨0, by decide⟩).api = ApiCat.samplingStep ∨
     (hw4Stmts.get ⟨0, by decide⟩).api = ApiCat.visualOutput ∨
     (hw4Stmts.get ⟨0, by decide⟩).api = ApiCat.originalComp) ∧
    ((probsCell [("0", 1)] 1).1 =
        [(("0" : String), (1 : ℕ))].map
          (fun sc => (sc.1, (sc.2 : ℚ) / ((1 : ℕ) : ℚ))) ∧
     (probsCell [("0", 1)] 1).2 =
        ([(("0" : String), (1 : ℕ))].map
          (fun sc => (sc.2 : ℚ) / ((1 : ℕ) : ℚ))).sum) :=
  ⟨qiskit_api_tour.1 (hw4Stmts.get ⟨0, by decide⟩)
      (List.get_mem hw4Stmts 0 (by decide)),
   qiskit_api_tour.2.2.2 [("0", 1)] 1⟩

/-! Section: The numerical cores (line counts) -/

/-- The numerical core of HW2 (the consolidated solve cell: potential,
grid, Hamiltonian, eigen-decomposition, sorting, normalization), one
entry per non-blank non-comment source line. -/
def hw2CoreLines : List String := [
  "N = 200",
  "L = 100",
  "def V(x):",
  "return 0.001 * x**2",
  "eta = 1",
  "m = 1",
  "q = 1",
  "X = np.linspace(0,L,num=N) - L/2",
  "a = X[1] - X[0]",
  "t = -eta**2 / (2 * m * a**2)",
  "eps = -2*t + q * V(X)",
  "H = t*np.eye(N, k=-1) + eps*np.eye(N) + t*np.eye(N, k=1)",
  "vals, vecs = np.linalg.eig(H)",
  "order = np.argsort(vals)",
  "vals, vecs = vals[order], vecs[:, order]",
  "vecs = vecs.T",
  "vecs /= np.sqrt(a)"]

/-- The numerical core of HW4 (the computation lines of the probs cell). -/
def hw4CoreLines : List String := [
  "probs = \x7b\x7d",
  "total_counts = len(bitstrings)",
  "total_prob = 0",
  "for state in counts.keys():",
  "probs[state] = counts[state]/total_counts",
  "total_prob += counts[state]/total_counts"]

/-- C6: the numerical core of each notebook is fewer than twenty lines
(17 for the HW2 solve cell, 6 for the HW4 probs cell), and each core line is
a transcribed statement of the corresponding notebook. -/
theorem numerical_core_under_twenty_lines :
    hw2CoreLines.length = 17 ∧ hw2CoreLines.length < 20 ∧
    hw4CoreLines.length = 6 ∧ hw4CoreLines.length < 20 ∧
    hw2CoreLines.all (fun l => hw2Stmts.any (fun s => s.desc == l)) = true ∧
    hw4CoreLines.all (fun l => hw4Stmts.any (fun s => s.desc == l)) = true :=
  ⟨rfl, by decide, rfl, by decide, rfl, rfl⟩
